import Mathlib

/-!
Shallow embedding of the Brief Aggregation and Ranking Engine of the
Email Executive Assistant app, together with proofs checking the
natural-language specification against it.

Sources embedded:
- `src/ExecutiveAssistantApp/src/types/index.ts` (data model),
- `src/ExecutiveAssistantApp/src/services/GmailService.ts`
  (urgency scoring, importance classification, action detection,
  thread parsing, ranking),
- `src/ExecutiveAssistantApp/src/services/CalendarService.ts`
  (event parsing, conflict detection),
- `src/ExecutiveAssistantApp/src/services/BriefService.ts`
  (brief generation, the TTL cache over the persistent store).

Modelling conventions:
- JavaScript `Date` instants and `getTime()` values are `Int`
  milliseconds since the epoch; the current time `Date.now()` is an
  explicit `now : Int` parameter.
- JavaScript `Array.prototype.sort(cmp)` is a stable sort that orders
  the array so that `cmp(out[i], out[j]) <= 0` for `i < j`; it is
  embedded as `List.insertionSort` over the propositional relation
  `cmp a b <= 0`, which is a stable sort in exactly that sense.
- Remote I/O (the Gmail and Calendar HTTP fetches) is injected as an
  `Except Unit` value: `Except.error` is a failed fetch (a thrown
  error reaching the catch block), `Except.ok` is the list of raw
  provider payloads fetched.
- The persistent key-value store (`AsyncStorage`) holds two entries
  used by the brief cache; it is embedded as a record of two `Option`
  fields, the JSON round trip of well-formed data being the identity.
-/

namespace EEA

/-! ## Data model (`types/index.ts`) -/

/-- Importance tier of a thread, source type `'high' | 'medium' | 'low'`. -/
inductive Importance where
  | high
  | medium
  | low
deriving DecidableEq, Repr

/-- Source interface `EmailThread`.  `lastMessageDate` is the `Date` as
epoch milliseconds; the optional `rationale` is `none` until the ranking
step fills it in. -/
structure EmailThread where
  id : String
  subject : String
  participants : List String
  lastMessageDate : Int
  isUnread : Bool
  urgencyScore : Int
  importance : Importance
  actionRequired : Bool
  rationale : Option String
  snippet : String
deriving DecidableEq, Repr

/-- Source interface `CalendarEvent`.  The source fields `start` and
`end` are renamed `startTime` and `endTime` because `end` is a Lean
keyword; `conflicts?: boolean` is optional in the source type but every
parsed event carries an explicit `false`, so it is embedded as `Bool`. -/
structure CalendarEvent where
  id : String
  title : String
  startTime : Int
  endTime : Int
  description : Option String
  location : Option String
  conflicts : Bool
deriving DecidableEq, Repr

/-- Source interface `BriefData` with the generation timestamp as epoch
milliseconds. -/
structure BriefData where
  id : String
  timestamp : Int
  calendarEvents : List CalendarEvent
  topEmails : List EmailThread
  allEmails : List EmailThread
deriving DecidableEq, Repr

/-! ## String primitives

JavaScript string operations used by the services, embedded over
`List Char`.  `toLowerCase` is ASCII lowering (`Char.toLower`); the
subject and snippet heuristics only ever compare ASCII keyword text. -/

/-- Embedding of JavaScript `String.prototype.toLowerCase`. -/
def lowerStr (s : String) : String :=
  String.mk (s.data.map Char.toLower)

/-- Helper for `containsSub`: does `pat` occur as a contiguous run in
the character list? -/
def isSubAux (pat : List Char) : List Char → Bool
  | [] => pat.isEmpty
  | c :: rest => pat.isPrefixOf (c :: rest) || isSubAux pat rest

/-- Embedding of JavaScript `hay.includes(pat)`. -/
def containsSub (hay pat : String) : Bool :=
  isSubAux pat.data hay.data

/-- Embedding of JavaScript `String.prototype.split` with a one
character separator, on character lists. -/
def splitOnChar (sep : Char) : List Char → List (List Char)
  | [] => [[]]
  | c :: rest =>
    let r := splitOnChar sep rest
    if c = sep then [] :: r
    else
      match r with
      | h :: t => (c :: h) :: t
      | [] => [[c]]

/-! ## Raw provider payloads

The duck-typed Gmail and Calendar JSON payloads consumed by
`parseThread`, `calculateUrgencyScore`, `calculateImportance`,
`determineActionRequired` and `parseEvent`.  Optional chaining through
a missing `payload` is flattened into the `headers` list (a missing
payload reads as no headers). -/

/-- One header of a Gmail message payload. -/
structure RawHeader where
  name : String
  value : String
deriving DecidableEq, Repr

/-- One message of a raw Gmail thread.  `internalDate` is the epoch
millisecond send time (the source applies `parseInt` to the string
field); `labelIds` and `snippet` are optional exactly as reached by
optional chaining in the source. -/
structure RawMessage where
  internalDate : Int
  labelIds : Option (List String)
  headers : List RawHeader
  snippet : Option String
deriving DecidableEq, Repr

/-- A raw Gmail thread payload: its provider id and message list. -/
structure RawThread where
  id : String
  messages : List RawMessage
deriving DecidableEq, Repr

/-- A raw Calendar event payload.  The source resolves
`start.dateTime`/`start.date` (and the same for `end`) to a `Date`;
that resolved instant is embedded directly as an optional epoch
millisecond value, `none` when the field is missing. -/
structure RawEvent where
  id : String
  summary : Option String
  startInstant : Option Int
  endInstant : Option Int
  description : Option String
  location : Option String
deriving DecidableEq, Repr

/-- Embedding of `labelIds?.includes(lbl) || false`. -/
def hasLabel (m : RawMessage) (lbl : String) : Bool :=
  (m.labelIds.getD []).contains lbl

/-- Case sensitive header lookup
`headers?.find(h => h.name === name)?.value || ''`, applied to an
optional message (optional chaining yields the empty string when the
message is absent). -/
def headerExact (om : Option RawMessage) (name : String) : String :=
  match om with
  | none => ""
  | some m =>
    match m.headers.find? (fun h => h.name = name) with
    | some h => h.value
    | none => ""

/-- Case insensitive header lookup used by `parseThread`:
`headers.find(h => h.name.toLowerCase() === name.toLowerCase())?.value || ''`. -/
def headerCI (headers : List RawHeader) (name : String) : String :=
  match headers.find? (fun h => lowerStr h.name = lowerStr name) with
  | some h => h.value
  | none => ""

/-! ## GmailService -/

/-- The fixed urgent keyword list of `calculateUrgencyScore`. -/
def urgentKeywords : List String :=
  ["urgent", "asap", "immediate", "deadline", "emergency", "critical"]

/-- Embedding of `GmailService.calculateUrgencyScore` (lines 142-170).
`hoursAgo = (now - internalDate) / 3600000 < k` is rescaled to the
equivalent millisecond comparison `now - internalDate < k * 3600000`
(division by the positive constant preserves the order of the reals).
The keyword subject is read from the first message with the case
sensitive header name `Subject`, exactly as in the source.  The source
would fault on an empty message list; that case is unreachable because
`parseThread` rejects empty threads before scoring, and the embedding
returns 0 there. -/
def calculateUrgencyScore (now : Int) (t : RawThread) : Int :=
  match t.messages.getLast? with
  | none => 0
  | some latest =>
    let recencyPts : Int :=
      if now - latest.internalDate < 2 * 3600000 then 3
      else if now - latest.internalDate < 24 * 3600000 then 2
      else if now - latest.internalDate < 72 * 3600000 then 1
      else 0
    let unreadPts : Int := if hasLabel latest "UNREAD" then 2 else 0
    let importantPts : Int := if hasLabel latest "IMPORTANT" then 2 else 0
    let subject := lowerStr (headerExact t.messages.head? "Subject")
    let keywordPts : Int :=
      if urgentKeywords.any (fun k => containsSub subject k) then 3 else 0
    min (recencyPts + unreadPts + importantPts + keywordPts) 10

/-- First regex of `extractEmailAddress`, the pattern for an angle
bracketed address: the leftmost occurrence of a nonempty run of
characters other than the closing bracket, enclosed in brackets,
returning the captured run. -/
def angleCapture : List Char → Option (List Char)
  | [] => none
  | c :: rest =>
    if c = '<' then
      let run := rest.takeWhile (fun d => d ≠ '>')
      if 1 ≤ run.length ∧ run.length < rest.length then some run
      else angleCapture rest
    else angleCapture rest

/-- Character class of the second regex of `extractEmailAddress`:
anything but whitespace and angle brackets. -/
def isAddrChar (c : Char) : Bool :=
  !(c.isWhitespace || c = '<' || c = '>')

/-- Does the run contain a separator character at an interior position,
with at least one character on each side?  This is exactly when the
greedy pattern one-or-more, separator, one-or-more matches the whole
run. -/
def hasMidAt (run : List Char) : Bool :=
  ((run.drop 1).dropLast).contains '@'

/-- Second regex of `extractEmailAddress`, the bare address pattern:
at each position in turn the regex engine matches a maximal run of
address characters containing an interior `@`; the whole run is the
match. -/
def emailMatch : List Char → Option (List Char)
  | [] => none
  | c :: rest =>
    let run := (c :: rest).takeWhile isAddrChar
    if isAddrChar c && hasMidAt run then some run
    else emailMatch rest

/-- Embedding of `GmailService.extractEmailAddress` (lines 137-140):
try the angle bracket capture, then the bare address match, and fall
back to the whole input string. -/
def extractEmailAddress (s : String) : String :=
  match angleCapture s.data with
  | some cap => String.mk cap
  | none =>
    match emailMatch s.data with
    | some m => String.mk m
    | none => s

/-- Embedding of `GmailService.getFromEmail` (lines 186-191): the
`From` header of the first message, fed through the address
extraction. -/
def getFromEmail (t : RawThread) : String :=
  extractEmailAddress (headerExact t.messages.head? "From")

/-- The fixed VIP domain allowlist of `isVIPSender`. -/
def vipDomains : List String := ["company.com", "client.com"]

/-- Embedding of `GmailService.isVIPSender` (lines 193-199):
`email.split('@')[1]?.toLowerCase()` membership in the allowlist; a
string with no `@` has no second split component and is not VIP. -/
def isVIPSender (email : String) : Bool :=
  match (splitOnChar '@' email.data).get? 1 with
  | none => false
  | some d => vipDomains.contains (String.mk (d.map Char.toLower))

/-- Embedding of `GmailService.calculateImportance` (lines 172-184). -/
def calculateImportance (now : Int) (t : RawThread) : Importance :=
  let urgencyScore := calculateUrgencyScore now t
  if urgencyScore ≥ 7 || isVIPSender (getFromEmail t) then .high
  else if urgencyScore ≥ 4 then .medium
  else .low

/-- The fixed action cue list of `determineActionRequired`. -/
def actionKeywords : List String :=
  ["please", "can you", "could you", "would you", "need you to",
   "action required", "response needed", "reply", "confirm",
   "review", "approve", "sign", "meeting"]

/-- Embedding of `GmailService.determineActionRequired`
(lines 201-214): a cue list containment test over the lower cased
snippet of the latest message. -/
def determineActionRequired (t : RawThread) : Bool :=
  match t.messages.getLast? with
  | none => false
  | some latest =>
    let snippet := lowerStr (latest.snippet.getD "")
    actionKeywords.any (fun k => containsSub snippet k)

/-- Embedding of `GmailService.parseThread` (lines 88-135).  An empty
message list yields `null`; the displayed subject comes from the
latest message through the case insensitive header lookup with the
`No Subject` fallback; participants are the nonempty `From`/`To`
headers fed through address extraction, dropping empty results. -/
def parseThread (now : Int) (t : RawThread) : Option EmailThread :=
  match t.messages.getLast? with
  | none => none
  | some latest =>
    let subjectRaw := headerCI latest.headers "Subject"
    let subject := if subjectRaw = "" then "No Subject" else subjectRaw
    let fromH := headerCI latest.headers "From"
    let toH := headerCI latest.headers "To"
    let participants :=
      ((([fromH, toH].filter (fun s => s ≠ "")).map extractEmailAddress).filter
        (fun s => s ≠ ""))
    some
      { id := t.id
        subject := subject
        participants := participants
        lastMessageDate := latest.internalDate
        isUnread := hasLabel latest "UNREAD"
        urgencyScore := calculateUrgencyScore now t
        importance := calculateImportance now t
        actionRequired := determineActionRequired t
        rationale := none
        snippet := latest.snippet.getD "" }

/-- Embedding of `GmailService.generateRationale` (lines 237-258). -/
def generateRationale (now : Int) (t : EmailThread) : String :=
  let reasons :=
    (if t.urgencyScore ≥ 7 then ["High urgency score"] else []) ++
    (if t.isUnread then ["Unread message"] else []) ++
    (if t.actionRequired then ["Action required"] else []) ++
    (if now - t.lastMessageDate < 24 * 3600000 then ["Recent message"] else [])
  if reasons = [] then "Standard priority"
  else String.intercalate ", " reasons

/-- The importance weight table of `rankThreads`. -/
def importanceWeight : Importance → Int
  | .high => 3
  | .medium => 2
  | .low => 1

/-- The comparator of `rankThreads` (lines 222-234): importance weight
descending, then urgency score descending, then latest message
timestamp descending. -/
def cmpThreads (a b : EmailThread) : Int :=
  let importanceDiff := importanceWeight b.importance - importanceWeight a.importance
  if importanceDiff ≠ 0 then importanceDiff
  else
    let urgencyDiff := b.urgencyScore - a.urgencyScore
    if urgencyDiff ≠ 0 then urgencyDiff
    else b.lastMessageDate - a.lastMessageDate

/-- The comes-no-later relation induced by the comparator, the order in
which a stable comparator sort arranges the list. -/
def threadRel (a b : EmailThread) : Prop :=
  cmpThreads a b ≤ 0

instance : DecidableRel threadRel := fun a b => by
  unfold threadRel; infer_instance

/-- Embedding of `GmailService.rankThreads` (lines 216-235): attach a
rationale to every thread, then stable sort by the three key
comparator. -/
def rankThreads (now : Int) (threads : List EmailThread) : List EmailThread :=
  List.insertionSort threadRel
    (threads.map (fun t => { t with rationale := some (generateRationale now t) }))

/-- Embedding of `GmailService.getEmailsFromWindow` (lines 59-86) with
the remote fetch injected: a thrown fetch error is caught and yields
the empty list; otherwise each raw thread is parsed (malformed ones
skipped) and the result ranked. -/
def getEmailsFromWindow (now : Int) (fetched : Except Unit (List RawThread)) :
    List EmailThread :=
  match fetched with
  | .error _ => []
  | .ok raws => rankThreads now (raws.filterMap (parseThread now))

/-! ## CalendarService -/

/-- Embedding of `CalendarService.parseEvent` (lines 85-113): both
instants are required (`null` otherwise); the title falls back to
`No Title` on a missing or empty summary; empty description and
location strings are falsy and become absent; `conflicts` starts
`false`. -/
def parseEvent (e : RawEvent) : Option CalendarEvent :=
  match e.startInstant, e.endInstant with
  | some s, some en =>
    some
      { id := e.id
        title :=
          match e.summary with
          | some ti => if ti = "" then "No Title" else ti
          | none => "No Title"
        startTime := s
        endTime := en
        description :=
          match e.description with
          | some d => if d = "" then none else some d
          | none => none
        location :=
          match e.location with
          | some lo => if lo = "" then none else some lo
          | none => none
        conflicts := false }
  | _, _ => none

/-- Embedding of `CalendarService.eventsOverlap` (lines 134-136), the
half open interval overlap test. -/
def eventsOverlap (e1 e2 : CalendarEvent) : Bool :=
  decide (e1.startTime < e2.endTime) && decide (e2.startTime < e1.endTime)

/-- The ascending start time relation of the sort in
`detectConflicts`. -/
def eventRel (a b : CalendarEvent) : Prop :=
  a.startTime ≤ b.startTime

instance : DecidableRel eventRel := fun a b => by
  unfold eventRel; infer_instance

/-- The marking pass of `detectConflicts`: for every index pair
`i < j` the source marks both events of an overlapping pair.  The
overlap test reads only the start and end instants, which the loop
never writes, so the final flag of the event at position `i` is its
initial flag joined with the existence of a distinct position whose
event overlaps it (the pair `i < j` ordering is absorbed by the
symmetry of the overlap test). -/
def markOverlaps (sorted : List CalendarEvent) : List CalendarEvent :=
  sorted.enum.map (fun p =>
    { p.2 with
      conflicts := p.2.conflicts ||
        sorted.enum.any (fun q => q.1 != p.1 && eventsOverlap q.2 p.2) })

/-- Embedding of `CalendarService.detectConflicts` (lines 115-132):
stable sort a copy of the array by start time ascending, then mark
every overlapping pair. -/
def detectConflicts (events : List CalendarEvent) : List CalendarEvent :=
  markOverlaps (List.insertionSort eventRel events)

/-- Embedding of `CalendarService.getEventsFromWindow` (lines 57-83)
with the remote fetch injected: a thrown fetch error is caught and
yields the empty list; otherwise the parsed events (malformed ones
skipped) go through conflict detection. -/
def getEventsFromWindow (fetched : Except Unit (List RawEvent)) :
    List CalendarEvent :=
  match fetched with
  | .error _ => []
  | .ok raws => detectConflicts (raws.filterMap parseEvent)

/-! ## BriefService -/

/-- `BRIEF_CACHE_DURATION`, five minutes in milliseconds. -/
def BRIEF_CACHE_DURATION : Int := 5 * 60 * 1000

/-- The two persistent store entries used by the brief cache: the
serialized `BriefData` under `BRIEF_CACHE_KEY` and its generation
timestamp under `BRIEF_TIMESTAMP_KEY`.  Serialization of well-formed
data is modelled as the identity, the timestamp as epoch
milliseconds. -/
structure Store where
  cachedBrief : Option BriefData
  briefTimestamp : Option Int
deriving DecidableEq, Repr

/-- The store with neither entry present. -/
def emptyStore : Store := { cachedBrief := none, briefTimestamp := none }

/-- Embedding of `BriefService.clearCache` (lines 111-120): remove both
entries. -/
def clearCache (_st : Store) : Store := emptyStore

/-- Embedding of `BriefService.getCachedBrief` (lines 56-98), returning
the lookup result together with the store as left behind: a partial
read (either entry missing) is a miss; an entry older than the TTL is
discarded and reported as a miss; otherwise the cached data is
returned. -/
def getCachedBrief (now : Int) (st : Store) : Option BriefData × Store :=
  match st.cachedBrief, st.briefTimestamp with
  | some data, some ts =>
    if now - ts > BRIEF_CACHE_DURATION then (none, clearCache st)
    else (some data, st)
  | _, _ => (none, st)

/-- Embedding of `BriefService.cacheBrief` (lines 100-109): store the
serialized brief and the current time. -/
def cacheBrief (now : Int) (b : BriefData) (_st : Store) : Store :=
  { cachedBrief := some b, briefTimestamp := some now }

/-- Embedding of `BriefService.generateBrief` (lines 12-45) with the
two remote fetch outcomes injected: serve the cache on a hit; on a
miss fetch both sources, assemble the brief with the top three ranked
emails, cache it and return it. -/
def generateBrief (now : Int) (st : Store)
    (emailFetch : Except Unit (List RawThread))
    (calFetch : Except Unit (List RawEvent)) : BriefData × Store :=
  match getCachedBrief now st with
  | (some cached, st') => (cached, st')
  | (none, st') =>
    let emails := getEmailsFromWindow now emailFetch
    let calendarEvents := getEventsFromWindow calFetch
    let briefData : BriefData :=
      { id := "brief_" ++ toString now
        timestamp := now
        calendarEvents := calendarEvents
        topEmails := emails.take 3
        allEmails := emails }
    (briefData, cacheBrief now briefData st')

/-! ## Two concurrent callers of `generateBrief`

The app runs on single threaded cooperative concurrency: a caller of
`generateBrief` suspends at the cache read, at the remote fetches and
at the cache write.  Two concurrent callers are modelled as two copies
of the `generateBrief` control flow advanced step by step under an
explicit interleaving; `gens` counts how many underlying generations
(pairs of source fetches) have been started.  Coalescing the fetch,
assemble and store phase into one atomic step only removes
interleavings, so any duplicate generation exhibited under this coarse
model is also possible in the source. -/

/-- Control state of one in-flight `generateBrief` call. -/
inductive CallPC where
  | checkCache
  | generate
  | finished (result : BriefData)
deriving DecidableEq, Repr

/-- Joint state of the store, the generation counter and the two
callers. -/
structure SysState where
  store : Store
  gens : Nat
  pcA : CallPC
  pcB : CallPC
deriving DecidableEq, Repr

/-- Advance one caller by one step of the `generateBrief` control
flow. -/
def stepCaller (now : Int) (emailFetch : Except Unit (List RawThread))
    (calFetch : Except Unit (List RawEvent))
    (store : Store) (gens : Nat) : CallPC → Store × Nat × CallPC
  | .checkCache =>
    match getCachedBrief now store with
    | (some cached, st') => (st', gens, .finished cached)
    | (none, st') => (st', gens, .generate)
  | .generate =>
    let emails := getEmailsFromWindow now emailFetch
    let calendarEvents := getEventsFromWindow calFetch
    let briefData : BriefData :=
      { id := "brief_" ++ toString now
        timestamp := now
        calendarEvents := calendarEvents
        topEmails := emails.take 3
        allEmails := emails }
    (cacheBrief now briefData store, gens + 1, .finished briefData)
  | .finished r => (store, gens, .finished r)

/-- Advance the system one step: `false` schedules caller A, `true`
schedules caller B. -/
def schedStep (now : Int) (emailFetch : Except Unit (List RawThread))
    (calFetch : Except Unit (List RawEvent)) (s : SysState) (who : Bool) :
    SysState :=
  if who then
    let (st, g, pc) := stepCaller now emailFetch calFetch s.store s.gens s.pcB
    { s with store := st, gens := g, pcB := pc }
  else
    let (st, g, pc) := stepCaller now emailFetch calFetch s.store s.gens s.pcA
    { s with store := st, gens := g, pcA := pc }

/-- Run a finite interleaving schedule. -/
def runSched (now : Int) (emailFetch : Except Unit (List RawThread))
    (calFetch : Except Unit (List RawEvent)) : SysState → List Bool → SysState
  | s, [] => s
  | s, w :: ws => runSched now emailFetch calFetch (schedStep now emailFetch calFetch s w) ws

/-- Both callers start at the cache check over a given store. -/
def initSys (st : Store) : SysState :=
  { store := st, gens := 0, pcA := .checkCache, pcB := .checkCache }

/-! ## Deduplication key, modelled from the spec

Modelled from the spec: the Deduplicator component (spec section 4.5)
does not exist anywhere in `src/` — the spec design notes state that
cross-account deduplication is specified by the product requirements
but not present in the literal implementation.  Only its equality key
is needed here, to state that two raw threads carry the same key:
normalize the subject by stripping leading `Re:`/`Fwd:` tokens, lower
casing and trimming whitespace, and pair it with the order independent
participant set. -/

/-- Modelled from the spec: repeatedly strip a leading `re:` or `fwd:`
token (the subject is already lower cased) and any whitespace after
it; the fuel argument bounds the recursion by the list length. -/
def stripLeadTokens : Nat → List Char → List Char
  | 0, l => l
  | n + 1, l =>
    if ("re:".data).isPrefixOf l then
      stripLeadTokens n ((l.drop 3).dropWhile Char.isWhitespace)
    else if ("fwd:".data).isPrefixOf l then
      stripLeadTokens n ((l.drop 4).dropWhile Char.isWhitespace)
    else l

/-- Modelled from the spec: the normalized subject — lower case, trim
surrounding whitespace, strip leading `Re:`/`Fwd:` tokens. -/
def normSubject (s : String) : String :=
  let low := s.data.map Char.toLower
  let trimmed := ((low.dropWhile Char.isWhitespace).reverse.dropWhile Char.isWhitespace).reverse
  String.mk (stripLeadTokens trimmed.length trimmed)

/-- Modelled from the spec: two threads have the same deduplication key
when their normalized subjects agree and their participant sets agree
up to order and multiplicity. -/
def sameDedupKey (a b : EmailThread) : Bool :=
  normSubject a.subject = normSubject b.subject &&
    a.participants.all (fun p => b.participants.contains p) &&
    b.participants.all (fun p => a.participants.contains p)

/-! ## Order properties of the two comparators -/

/-- The thread comparator is antisymmetric: swapping the arguments
negates it. -/
theorem cmpThreads_swap (a b : EmailThread) : cmpThreads b a = -cmpThreads a b := by
  simp only [cmpThreads]
  split_ifs <;> omega

/-- Characterization of the comes-no-later relation as the
lexicographic comparison of the three keys: importance weight
descending, urgency descending, latest message timestamp
descending. -/
theorem cmpThreads_le_iff (a b : EmailThread) : cmpThreads a b ≤ 0 ↔
    (importanceWeight b.importance < importanceWeight a.importance ∨
      (importanceWeight b.importance = importanceWeight a.importance ∧
        (b.urgencyScore < a.urgencyScore ∨
          (b.urgencyScore = a.urgencyScore ∧
            b.lastMessageDate ≤ a.lastMessageDate)))) := by
  simp only [cmpThreads]
  split_ifs <;> omega

instance : IsTotal EmailThread threadRel :=
  ⟨fun a b => by
    unfold threadRel
    have h := cmpThreads_swap a b
    omega⟩

instance : IsTrans EmailThread threadRel :=
  ⟨fun a b c hab hbc => by
    unfold threadRel at *
    rw [cmpThreads_le_iff] at *
    omega⟩

instance : IsTotal CalendarEvent eventRel :=
  ⟨fun a b => by unfold eventRel; omega⟩

instance : IsTrans CalendarEvent eventRel :=
  ⟨fun a b c hab hbc => by unfold eventRel at *; omega⟩

/-! ## C1: the ranking order -/

/-- Two threads that tie on all three comparator keys but carry
different ids, used to exhibit the missing id tie-break. -/
def tieThreadA : EmailThread :=
  { id := "a", subject := "s", participants := [], lastMessageDate := 0,
    isUnread := false, urgencyScore := 0, importance := .low,
    actionRequired := false, rationale := none, snippet := "" }

/-- The partner of `tieThreadA`, identical except for the id. -/
def tieThreadB : EmailThread :=
  { tieThreadA with id := "b" }

/-- C1, counterexample: `rankThreads` has no fourth, id based sort key,
and the stable sort breaks ties by input position, so the two
permutations of the same two-element multiset of tied threads produce
different output sequences. -/
theorem C1_counterexample :
    List.Perm [tieThreadA, tieThreadB] [tieThreadB, tieThreadA] ∧
    rankThreads 0 [tieThreadA, tieThreadB] ≠ rankThreads 0 [tieThreadB, tieThreadA] :=
  ⟨List.Perm.swap tieThreadB tieThreadA [], by decide⟩

/-- C1 (amended): `rankThreads` orders its input by exactly three keys
in priority order — importance weight descending (high=3, medium=2,
low=1), then urgency score descending, then latest message timestamp
descending — as a stable sort of the rationale-annotated input, of
which the output is a permutation.  There is no fourth id key: ties
are broken by input position, so the output is deterministic for a
given input sequence but not invariant under permutation of the
input. -/
theorem C1_ranking_three_keys (now : Int) (l : List EmailThread) :
    List.Pairwise
      (fun a b =>
        importanceWeight b.importance < importanceWeight a.importance ∨
          (importanceWeight b.importance = importanceWeight a.importance ∧
            (b.urgencyScore < a.urgencyScore ∨
              (b.urgencyScore = a.urgencyScore ∧
                b.lastMessageDate ≤ a.lastMessageDate))))
      (rankThreads now l) ∧
    List.Perm (rankThreads now l)
      (l.map (fun t => { t with rationale := some (generateRationale now t) })) := by
  constructor
  · exact (List.sorted_insertionSort threadRel _).imp
      (fun hab => (cmpThreads_le_iff _ _).mp hab)
  · exact List.perm_insertionSort threadRel _

/-! ## C10: conflict detection only touches the conflicts flag -/

/-- Erase the conflicts flag of an event, leaving every other field. -/
def clearFlag (e : CalendarEvent) : CalendarEvent :=
  { e with conflicts := false }

/-- Up to the conflicts flag, `markOverlaps` is the identity. -/
theorem markOverlaps_map_clearFlag (s : List CalendarEvent) :
    (markOverlaps s).map clearFlag = s.map clearFlag := by
  simp only [markOverlaps, List.map_map]
  have h1 : ∀ p ∈ s.enum,
      (clearFlag ∘ fun p : Nat × CalendarEvent =>
        { p.2 with
          conflicts := p.2.conflicts ||
            s.enum.any (fun q => q.1 != p.1 && eventsOverlap q.2 p.2) }) p =
      (clearFlag ∘ Prod.snd) p := by
    intro p _
    rfl
  rw [List.map_congr_left h1, ← List.map_map]
  rw [List.enum_map_snd]

/-- Up to the conflicts flag, `detectConflicts` maps its sorted input
pointwise. -/
theorem detectConflicts_map_clearFlag (events : List CalendarEvent) :
    (detectConflicts events).map clearFlag =
      (List.insertionSort eventRel events).map clearFlag := by
  simp only [detectConflicts]
  exact markOverlaps_map_clearFlag _

/-- Length preservation of the marking pass. -/
theorem markOverlaps_length (s : List CalendarEvent) :
    (markOverlaps s).length = s.length := by
  simp [markOverlaps, List.enum_length]

/-- Length preservation of conflict detection. -/
theorem detectConflicts_length (events : List CalendarEvent) :
    (detectConflicts events).length = events.length := by
  simp [detectConflicts, markOverlaps_length, List.length_insertionSort]

/-- Pointwise description of the marking pass: the event at position
`i` keeps all fields and has its conflicts flag joined with the
existence of a distinct overlapping position. -/
theorem markOverlaps_get (s : List CalendarEvent) (i : Nat) (hi : i < s.length) :
    (markOverlaps s).get ⟨i, by simpa [markOverlaps_length] using hi⟩ =
      { s.get ⟨i, hi⟩ with
        conflicts := (s.get ⟨i, hi⟩).conflicts ||
          s.enum.any (fun q => q.1 != i && eventsOverlap q.2 (s.get ⟨i, hi⟩)) } := by
  simp [markOverlaps, List.get_eq_getElem, List.getElem_map, List.getElem_enum]

/-- The conflicts flag computed by the marking pass, when every input
flag starts false: it is set exactly when a distinct position holds an
overlapping event. -/
theorem markOverlaps_conflicts_iff (s : List CalendarEvent)
    (hflags : ∀ e ∈ s, e.conflicts = false) (i : Nat) (hi : i < s.length) :
    ((markOverlaps s).get ⟨i, by simpa [markOverlaps_length] using hi⟩).conflicts = true ↔
      ∃ (j : Nat) (hj : j < s.length), j ≠ i ∧
        eventsOverlap (s.get ⟨j, hj⟩) (s.get ⟨i, hi⟩) = true := by
  rw [markOverlaps_get]
  have hz : (s.get ⟨i, hi⟩).conflicts = false := hflags _ (s.get_mem i hi)
  simp only [hz, Bool.false_or]
  rw [List.any_eq_true]
  constructor
  · rintro ⟨q, hqmem, hq⟩
    rcases List.mem_iff_getElem.mp hqmem with ⟨k, hk, hkq⟩
    have hk' : k < s.length := by simpa [List.enum_length] using hk
    rw [List.getElem_enum] at hkq
    rw [← hkq] at hq
    simp only [Bool.and_eq_true, bne_iff_ne, ne_eq] at hq
    exact ⟨k, hk', hq.1, by simpa [List.get_eq_getElem] using hq.2⟩
  · rintro ⟨j, hj, hne, hov⟩
    refine ⟨(j, s.get ⟨j, hj⟩), ?_, ?_⟩
    · apply List.mem_iff_getElem.mpr
      refine ⟨j, by simpa [List.enum_length] using hj, ?_⟩
      rw [List.getElem_enum]
      simp [List.get_eq_getElem]
    · simp only [Bool.and_eq_true, bne_iff_ne, ne_eq]
      exact ⟨hne, hov⟩

/-- The half open overlap test is symmetric. -/
theorem eventsOverlap_comm (a b : CalendarEvent) :
    eventsOverlap a b = eventsOverlap b a := by
  simp [eventsOverlap, Bool.and_comm]

/-- The marking pass does not change start instants. -/
theorem markOverlaps_get_startTime (s : List CalendarEvent) (i : Nat)
    (hi : i < s.length) :
    ((markOverlaps s).get ⟨i, by simpa [markOverlaps_length] using hi⟩).startTime =
      (s.get ⟨i, hi⟩).startTime := by
  rw [markOverlaps_get]

/-- The overlap test between two marked events agrees with the overlap
test between the underlying events. -/
theorem markOverlaps_overlap (s : List CalendarEvent) (i j : Nat)
    (hi : i < s.length) (hj : j < s.length) :
    eventsOverlap ((markOverlaps s).get ⟨j, by simpa [markOverlaps_length] using hj⟩)
        ((markOverlaps s).get ⟨i, by simpa [markOverlaps_length] using hi⟩) =
      eventsOverlap (s.get ⟨j, hj⟩) (s.get ⟨i, hi⟩) := by
  rw [markOverlaps_get s j hj, markOverlaps_get s i hi]
  simp only [eventsOverlap]

/-- C2: on events whose conflicts flags start false (as every event
produced by `parseEvent` does), `detectConflicts` returns the events
sorted by start time ascending; the conflicts flag of an output event
is true exactly when another event of the list overlaps it under the
half open predicate, and both events of every overlapping pair are
marked together. -/
theorem C2_detectConflicts_spec (events : List CalendarEvent)
    (h : ∀ e ∈ events, e.conflicts = false) :
    (∀ (i j : Nat) (hi : i < (detectConflicts events).length)
        (hj : j < (detectConflicts events).length), i < j →
        ((detectConflicts events).get ⟨i, hi⟩).startTime ≤
          ((detectConflicts events).get ⟨j, hj⟩).startTime) ∧
    (∀ (i : Nat) (hi : i < (detectConflicts events).length),
        ((detectConflicts events).get ⟨i, hi⟩).conflicts = true ↔
          ∃ (j : Nat) (hj : j < (detectConflicts events).length), j ≠ i ∧
            eventsOverlap ((detectConflicts events).get ⟨j, hj⟩)
              ((detectConflicts events).get ⟨i, hi⟩) = true) ∧
    (∀ (i j : Nat) (hi : i < (detectConflicts events).length)
        (hj : j < (detectConflicts events).length), i ≠ j →
        eventsOverlap ((detectConflicts events).get ⟨i, hi⟩)
          ((detectConflicts events).get ⟨j, hj⟩) = true →
        ((detectConflicts events).get ⟨i, hi⟩).conflicts = true ∧
          ((detectConflicts events).get ⟨j, hj⟩).conflicts = true) := by
  simp only [detectConflicts]
  have hflags : ∀ e ∈ List.insertionSort eventRel events, e.conflicts = false :=
    fun e he => h e ((List.perm_insertionSort eventRel events).mem_iff.mp he)
  have hsort := List.sorted_insertionSort eventRel events
  have hpos := List.pairwise_iff_getElem.mp hsort
  have hlen : (markOverlaps (List.insertionSort eventRel events)).length =
      (List.insertionSort eventRel events).length := markOverlaps_length _
  refine ⟨?_, ?_, ?_⟩
  · intro i j hi hj hij
    have hi0 : i < (List.insertionSort eventRel events).length := hlen ▸ hi
    have hj0 : j < (List.insertionSort eventRel events).length := hlen ▸ hj
    have h1 := markOverlaps_get_startTime (List.insertionSort eventRel events) i hi0
    have h2 := markOverlaps_get_startTime (List.insertionSort eventRel events) j hj0
    rw [h1, h2]
    simpa [List.get_eq_getElem, eventRel] using hpos i j hi0 hj0 hij
  · intro i hi
    have hi0 : i < (List.insertionSort eventRel events).length := hlen ▸ hi
    rw [markOverlaps_conflicts_iff _ hflags i hi0]
    constructor
    · rintro ⟨j, hj0, hne, hov⟩
      refine ⟨j, hlen ▸ hj0, hne, ?_⟩
      rw [markOverlaps_overlap _ i j hi0 hj0]
      exact hov
    · rintro ⟨j, hj, hne, hov⟩
      have hj0 : j < (List.insertionSort eventRel events).length := hlen ▸ hj
      refine ⟨j, hj0, hne, ?_⟩
      rw [← markOverlaps_overlap _ i j hi0 hj0]
      exact hov
  · intro i j hi hj hne hov
    have hi0 : i < (List.insertionSort eventRel events).length := hlen ▸ hi
    have hj0 : j < (List.insertionSort eventRel events).length := hlen ▸ hj
    constructor
    · rw [markOverlaps_conflicts_iff _ hflags i hi0]
      refine ⟨j, hj0, fun hji => hne hji.symm, ?_⟩
      rw [← markOverlaps_overlap _ i j hi0 hj0, eventsOverlap_comm]
      exact hov
    · rw [markOverlaps_conflicts_iff _ hflags j hj0]
      refine ⟨i, hi0, fun hij => hne hij, ?_⟩
      rw [← markOverlaps_overlap _ j i hj0 hi0]
      exact hov

/-- An event occupying 09:00 - 10:00, instants in minutes. -/
def demoEventA : CalendarEvent :=
  { id := "a1", title := "standup", startTime := 540, endTime := 600,
    description := none, location := none, conflicts := false }

/-- An event occupying 09:30 - 10:30, overlapping `demoEventA`. -/
def demoEventB : CalendarEvent :=
  { id := "b1", title := "planning", startTime := 570, endTime := 630,
    description := none, location := none, conflicts := false }

/-- C2, witness: the two-event scenario of the claim, with the
hypothesis that all input flags start false discharged concretely. -/
theorem C2_witness :
    (∀ e ∈ [demoEventA, demoEventB], e.conflicts = false) ∧
    ((∀ (i j : Nat) (hi : i < (detectConflicts [demoEventA, demoEventB]).length)
        (hj : j < (detectConflicts [demoEventA, demoEventB]).length), i < j →
        ((detectConflicts [demoEventA, demoEventB]).get ⟨i, hi⟩).startTime ≤
          ((detectConflicts [demoEventA, demoEventB]).get ⟨j, hj⟩).startTime) ∧
    (∀ (i : Nat) (hi : i < (detectConflicts [demoEventA, demoEventB]).length),
        ((detectConflicts [demoEventA, demoEventB]).get ⟨i, hi⟩).conflicts = true ↔
          ∃ (j : Nat) (hj : j < (detectConflicts [demoEventA, demoEventB]).length), j ≠ i ∧
            eventsOverlap ((detectConflicts [demoEventA, demoEventB]).get ⟨j, hj⟩)
              ((detectConflicts [demoEventA, demoEventB]).get ⟨i, hi⟩) = true) ∧
    (∀ (i j : Nat) (hi : i < (detectConflicts [demoEventA, demoEventB]).length)
        (hj : j < (detectConflicts [demoEventA, demoEventB]).length), i ≠ j →
        eventsOverlap ((detectConflicts [demoEventA, demoEventB]).get ⟨i, hi⟩)
          ((detectConflicts [demoEventA, demoEventB]).get ⟨j, hj⟩) = true →
        ((detectConflicts [demoEventA, demoEventB]).get ⟨i, hi⟩).conflicts = true ∧
          ((detectConflicts [demoEventA, demoEventB]).get ⟨j, hj⟩).conflicts = true)) :=
  ⟨by decide, C2_detectConflicts_spec [demoEventA, demoEventB] (by decide)⟩

/-- C10: `detectConflicts` returns exactly the input events — a
permutation with no event added, dropped or duplicated — and changes
nothing but the conflicts flag: id, title, start, end, description and
location of every output event match those of a corresponding input
event. -/
theorem C10_detectConflicts_frame (events : List CalendarEvent) :
    (detectConflicts events).length = events.length ∧
    List.Perm ((detectConflicts events).map clearFlag) (events.map clearFlag) ∧
    ∀ e ∈ detectConflicts events, ∃ e0 ∈ events,
      e.id = e0.id ∧ e.title = e0.title ∧ e.startTime = e0.startTime ∧
        e.endTime = e0.endTime ∧ e.description = e0.description ∧
        e.location = e0.location := by
  have hperm : List.Perm ((detectConflicts events).map clearFlag) (events.map clearFlag) := by
    rw [detectConflicts_map_clearFlag]
    exact (List.perm_insertionSort eventRel events).map clearFlag
  refine ⟨?_, hperm, ?_⟩
  · have hlen := hperm.length_eq
    simpa using hlen
  · intro e he
    have hmem : clearFlag e ∈ events.map clearFlag :=
      hperm.mem_iff.mp (List.mem_map_of_mem clearFlag he)
    rcases List.mem_map.mp hmem with ⟨e0, he0, heq⟩
    refine ⟨e0, he0, ?_⟩
    have h1 : (clearFlag e0).id = (clearFlag e).id := by rw [heq]
    have h2 : (clearFlag e0).title = (clearFlag e).title := by rw [heq]
    have h3 : (clearFlag e0).startTime = (clearFlag e).startTime := by rw [heq]
    have h4 : (clearFlag e0).endTime = (clearFlag e).endTime := by rw [heq]
    have h5 : (clearFlag e0).description = (clearFlag e).description := by rw [heq]
    have h6 : (clearFlag e0).location = (clearFlag e).location := by rw [heq]
    simp only [clearFlag] at h1 h2 h3 h4 h5 h6
    exact ⟨h1.symm, h2.symm, h3.symm, h4.symm, h5.symm, h6.symm⟩

/-! ## C7: the top emails are a prefix of the full ranked list -/

/-- C7: every brief assembled by the generation path carries a
`topEmails` list that is the length `min 3 N` front segment of
`allEmails`, in the same order. -/
theorem C7_topEmails_take (now : Int) (st : Store)
    (ef : Except Unit (List RawThread)) (cf : Except Unit (List RawEvent))
    (h : (getCachedBrief now st).1 = none) :
    (generateBrief now st ef cf).1.topEmails =
        (generateBrief now st ef cf).1.allEmails.take 3 ∧
    (generateBrief now st ef cf).1.topEmails.length =
        min 3 (generateBrief now st ef cf).1.allEmails.length ∧
    ∃ rest, (generateBrief now st ef cf).1.topEmails ++ rest =
        (generateBrief now st ef cf).1.allEmails := by
  rcases hg : getCachedBrief now st with ⟨o, st'⟩
  rw [hg] at h
  simp only at h
  subst h
  simp only [generateBrief, hg]
  refine ⟨trivial, List.length_take 3 _, ⟨(getEmailsFromWindow now ef).drop 3, List.take_append_drop 3 _⟩⟩

/-- C7, witness: a cold store is a cache miss, and the generated brief
satisfies the prefix shape. -/
theorem C7_witness :
    (getCachedBrief 0 emptyStore).1 = none ∧
    ((generateBrief 0 emptyStore (.ok []) (.ok [])).1.topEmails =
        (generateBrief 0 emptyStore (.ok []) (.ok [])).1.allEmails.take 3 ∧
    (generateBrief 0 emptyStore (.ok []) (.ok [])).1.topEmails.length =
        min 3 (generateBrief 0 emptyStore (.ok []) (.ok [])).1.allEmails.length ∧
    ∃ rest, (generateBrief 0 emptyStore (.ok []) (.ok [])).1.topEmails ++ rest =
        (generateBrief 0 emptyStore (.ok []) (.ok [])).1.allEmails) :=
  ⟨rfl, C7_topEmails_take 0 emptyStore (.ok []) (.ok []) rfl⟩

/-! ## C3: the urgency score is a capped sum of four signals -/

/-- C3: for a nonempty thread the urgency score is `min(sum, 10)` of
the four independent additive signals — recency of the latest message
(under 2h gives 3, under 24h gives 2, under 72h gives 1, else 0), 2
for the unread label, 2 for the provider important label, 3 when the
scored subject contains an urgent keyword case insensitively — and is
therefore always within `[0, 10]`. -/
theorem C3_urgency_additive_capped (now : Int) (t : RawThread)
    (h : t.messages ≠ []) :
    (∃ latest, t.messages.getLast? = some latest ∧
      calculateUrgencyScore now t =
        min ((if now - latest.internalDate < 2 * 3600000 then (3 : Int)
              else if now - latest.internalDate < 24 * 3600000 then 2
              else if now - latest.internalDate < 72 * 3600000 then 1
              else 0) +
            (if hasLabel latest "UNREAD" then 2 else 0) +
            (if hasLabel latest "IMPORTANT" then 2 else 0) +
            (if urgentKeywords.any (fun k =>
                containsSub (lowerStr (headerExact t.messages.head? "Subject")) k)
              then 3 else 0)) 10) ∧
    0 ≤ calculateUrgencyScore now t ∧ calculateUrgencyScore now t ≤ 10 := by
  have hsome : t.messages.getLast?.isSome := by
    rw [List.getLast?_isSome]
    exact h
  rcases Option.isSome_iff_exists.mp hsome with ⟨latest, hl⟩
  have hcalc : calculateUrgencyScore now t =
      min ((if now - latest.internalDate < 2 * 3600000 then (3 : Int)
            else if now - latest.internalDate < 24 * 3600000 then 2
            else if now - latest.internalDate < 72 * 3600000 then 1
            else 0) +
          (if hasLabel latest "UNREAD" then 2 else 0) +
          (if hasLabel latest "IMPORTANT" then 2 else 0) +
          (if urgentKeywords.any (fun k =>
              containsSub (lowerStr (headerExact t.messages.head? "Subject")) k)
            then 3 else 0)) 10 := by
    simp only [calculateUrgencyScore, hl]
  refine ⟨⟨latest, hl, hcalc⟩, ?_, ?_⟩
  · rw [hcalc]
    split_ifs <;> decide
  · rw [hcalc]
    exact min_le_right _ _

/-- The latest message of the spec scenario thread: sent one hour
before scoring, unread, flagged important, subject containing an
urgent keyword. -/
def demoUrgentMsg : RawMessage :=
  { internalDate := 0, labelIds := some ["UNREAD", "IMPORTANT"],
    headers := [{ name := "Subject", value := "URGENT: deadline" }],
    snippet := none }

/-- The spec scenario thread carrying `demoUrgentMsg`. -/
def demoUrgentThread : RawThread :=
  { id := "t1", messages := [demoUrgentMsg] }

/-- C3, witness: the scenario thread is nonempty and its score one hour
after sending is the capped sum, concretely 3+2+2+3 capped at 10. -/
theorem C3_witness :
    demoUrgentThread.messages ≠ [] ∧
    ((∃ latest, demoUrgentThread.messages.getLast? = some latest ∧
      calculateUrgencyScore 3600000 demoUrgentThread =
        min ((if 3600000 - latest.internalDate < 2 * 3600000 then (3 : Int)
              else if 3600000 - latest.internalDate < 24 * 3600000 then 2
              else if 3600000 - latest.internalDate < 72 * 3600000 then 1
              else 0) +
            (if hasLabel latest "UNREAD" then 2 else 0) +
            (if hasLabel latest "IMPORTANT" then 2 else 0) +
            (if urgentKeywords.any (fun k =>
                containsSub
                  (lowerStr (headerExact demoUrgentThread.messages.head? "Subject")) k)
              then 3 else 0)) 10) ∧
    0 ≤ calculateUrgencyScore 3600000 demoUrgentThread ∧
      calculateUrgencyScore 3600000 demoUrgentThread ≤ 10) :=
  ⟨by decide, C3_urgency_additive_capped 3600000 demoUrgentThread (by decide)⟩

/-! ## C4: the importance tier rule -/

/-- C4: the importance tier is `high` exactly when the urgency score is
at least 7 or the sender is VIP; otherwise `medium` exactly when the
score is at least 4; `low` occurs exactly when the score is below 4
and the sender is not VIP; and a VIP sender forces `high` regardless
of urgency. -/
theorem C4_importance_rule (now : Int) (t : RawThread) (_h : t.messages ≠ []) :
    (calculateImportance now t = .high ↔
      7 ≤ calculateUrgencyScore now t ∨ isVIPSender (getFromEmail t) = true) ∧
    (calculateImportance now t = .medium ↔
      calculateUrgencyScore now t < 7 ∧ isVIPSender (getFromEmail t) = false ∧
        4 ≤ calculateUrgencyScore now t) ∧
    (calculateImportance now t = .low ↔
      calculateUrgencyScore now t < 4 ∧ isVIPSender (getFromEmail t) = false) ∧
    (isVIPSender (getFromEmail t) = true → calculateImportance now t = .high) := by
  simp only [calculateImportance]
  split_ifs with h1 h2
  · simp only [Bool.or_eq_true, decide_eq_true_iff, ge_iff_le] at h1
    refine ⟨⟨fun _ => h1, fun _ => rfl⟩, ?_, ?_, fun _ => rfl⟩
    · constructor
      · intro hcontra
        exact absurd hcontra (by decide)
      · rintro ⟨hlt7, hnv, _⟩
        rcases h1 with h7 | hv
        · omega
        · rw [hv] at hnv
          exact absurd hnv (by decide)
    · constructor
      · intro hcontra
        exact absurd hcontra (by decide)
      · rintro ⟨hlt4, hnv⟩
        rcases h1 with h7 | hv
        · omega
        · rw [hv] at hnv
          exact absurd hnv (by decide)
  · simp only [Bool.or_eq_true, decide_eq_true_iff, ge_iff_le, not_or] at h1
    simp only [ge_iff_le, decide_eq_true_iff] at h2
    have hnv : isVIPSender (getFromEmail t) = false := by
      rcases h1 with ⟨_, hb⟩
      exact Bool.not_eq_true _ ▸ Bool.eq_false_iff.mpr hb
    refine ⟨?_, ?_, ?_, ?_⟩
    · constructor
      · intro hcontra
        exact absurd hcontra (by decide)
      · rintro (h7 | hv)
        · exact absurd h7 h1.1
        · rw [hv] at hnv
          exact absurd hnv (by decide)
    · constructor
      · intro _
        exact ⟨by omega, hnv, h2⟩
      · intro _
        rfl
    · constructor
      · intro hcontra
        exact absurd hcontra (by decide)
      · rintro ⟨hlt4, _⟩
        omega
    · intro hv
      rw [hv] at hnv
      exact absurd hnv (by decide)
  · simp only [Bool.or_eq_true, decide_eq_true_iff, ge_iff_le, not_or] at h1
    simp only [ge_iff_le, decide_eq_true_iff, not_le] at h2
    have hnv : isVIPSender (getFromEmail t) = false := by
      rcases h1 with ⟨_, hb⟩
      exact Bool.not_eq_true _ ▸ Bool.eq_false_iff.mpr hb
    refine ⟨?_, ?_, ?_, ?_⟩
    · constructor
      · intro hcontra
        exact absurd hcontra (by decide)
      · rintro (h7 | hv)
        · exact absurd h7 h1.1
        · rw [hv] at hnv
          exact absurd hnv (by decide)
    · constructor
      · intro hcontra
        exact absurd hcontra (by decide)
      · rintro ⟨_, _, h4⟩
        omega
    · constructor
      · intro _
        exact ⟨h2, hnv⟩
      · intro _
        rfl
    · intro hv
      rw [hv] at hnv
      exact absurd hnv (by decide)

/-- The sole message of a low urgency thread from a VIP domain sender:
sent long before scoring, no labels, no urgent keyword. -/
def demoVipMsg : RawMessage :=
  { internalDate := 0, labelIds := none,
    headers := [{ name := "From", value := "Boss <boss@company.com>" },
                { name := "Subject", value := "hello" }],
    snippet := none }

/-- A thread whose only signal is the VIP sender domain. -/
def demoVipThread : RawThread :=
  { id := "t2", messages := [demoVipMsg] }

/-- C4, witness: the VIP thread is nonempty and the rule instance holds
for it; in particular the VIP override applies at urgency 0. -/
theorem C4_witness :
    demoVipThread.messages ≠ [] ∧
    ((calculateImportance 1000000000 demoVipThread = .high ↔
      7 ≤ calculateUrgencyScore 1000000000 demoVipThread ∨
        isVIPSender (getFromEmail demoVipThread) = true) ∧
    (calculateImportance 1000000000 demoVipThread = .medium ↔
      calculateUrgencyScore 1000000000 demoVipThread < 7 ∧
        isVIPSender (getFromEmail demoVipThread) = false ∧
        4 ≤ calculateUrgencyScore 1000000000 demoVipThread) ∧
    (calculateImportance 1000000000 demoVipThread = .low ↔
      calculateUrgencyScore 1000000000 demoVipThread < 4 ∧
        isVIPSender (getFromEmail demoVipThread) = false) ∧
    (isVIPSender (getFromEmail demoVipThread) = true →
      calculateImportance 1000000000 demoVipThread = .high)) :=
  ⟨by decide, C4_importance_rule 1000000000 demoVipThread (by decide)⟩

/-! ## C5: the cache lookup contract -/

/-- C5: the lookup returns the stored brief exactly when both persisted
entries are present and the entry is at most five minutes old; an
entry older than the TTL is discarded (both entries removed) and a
miss is reported; a partial read is a full miss leaving the store
untouched; and after any miss `generateBrief` performs a fresh
generation, stamping the brief with the current time and the freshly
fetched data. -/
theorem C5_cache_contract (now : Int) (st : Store) :
    (∀ d : BriefData, (getCachedBrief now st).1 = some d ↔
      (st.cachedBrief = some d ∧ ∃ ts, st.briefTimestamp = some ts ∧
        now - ts ≤ BRIEF_CACHE_DURATION)) ∧
    (∀ (d : BriefData) (ts : Int), st.cachedBrief = some d →
      st.briefTimestamp = some ts → BRIEF_CACHE_DURATION < now - ts →
      getCachedBrief now st = (none, emptyStore)) ∧
    ((st.cachedBrief = none ∨ st.briefTimestamp = none) →
      getCachedBrief now st = (none, st)) ∧
    (∀ (ef : Except Unit (List RawThread)) (cf : Except Unit (List RawEvent)),
      (getCachedBrief now st).1 = none →
      (generateBrief now st ef cf).1.timestamp = now ∧
      (generateBrief now st ef cf).1.allEmails = getEmailsFromWindow now ef ∧
      (generateBrief now st ef cf).1.calendarEvents = getEventsFromWindow cf) := by
  rcases st with ⟨cb, bt⟩
  rcases cb with _ | d0
  · exact ⟨fun d => by simp [getCachedBrief],
      fun d ts hd => by simp at hd,
      fun _ => rfl,
      fun ef cf _ => ⟨rfl, rfl, rfl⟩⟩
  · rcases bt with _ | ts0
    · exact ⟨fun d => by simp [getCachedBrief],
        fun d ts _ ht => by simp at ht,
        fun _ => rfl,
        fun ef cf _ => ⟨rfl, rfl, rfl⟩⟩
    · by_cases httl : now - ts0 > BRIEF_CACHE_DURATION
      · refine ⟨?_, ?_, ?_, ?_⟩
        · intro d
          simp only [getCachedBrief, if_pos httl]
          constructor
          · intro hc
            exact absurd hc (by simp)
          · rintro ⟨-, ts, hts, hle⟩
            simp only [Option.some.injEq] at hts
            omega
        · intro d ts _ hts _
          simp only [Option.some.injEq] at hts
          simp only [getCachedBrief, if_pos httl, clearCache]
        · rintro (hc | hc) <;> simp at hc
        · intro ef cf _
          simp [generateBrief, getCachedBrief, if_pos httl]
      · refine ⟨?_, ?_, ?_, ?_⟩
        · intro d
          simp only [getCachedBrief, if_neg httl]
          constructor
          · intro hc
            simp only [Option.some.injEq] at hc
            exact ⟨by rw [hc], ts0, rfl, by omega⟩
          · rintro ⟨hd, -⟩
            simp only [Option.some.injEq] at hd
            rw [hd]
        · intro d ts _ hts hgt
          simp only [Option.some.injEq] at hts
          omega
        · rintro (hc | hc) <;> simp at hc
        · intro ef cf hmiss
          simp only [getCachedBrief, if_neg httl] at hmiss
          exact absurd hmiss (by simp)

/-- A fixed brief used by the cache scenario witnesses. -/
def demoBrief : BriefData :=
  { id := "brief_0", timestamp := 0, calendarEvents := [],
    topEmails := [], allEmails := [] }

/-- C5, witness: a brief cached at time 0 and queried six minutes later
is discarded and reported as a miss, and the subsequent generation is
stamped with the query time. -/
theorem C5_witness :
    getCachedBrief 360000 { cachedBrief := some demoBrief, briefTimestamp := some 0 } =
      (none, emptyStore) ∧
    (generateBrief 360000 { cachedBrief := some demoBrief, briefTimestamp := some 0 }
      (.ok []) (.ok [])).1.timestamp = 360000 := by
  have h := C5_cache_contract 360000
    { cachedBrief := some demoBrief, briefTimestamp := some 0 }
  refine ⟨h.2.1 demoBrief 0 rfl rfl (by decide), ?_⟩
  have hmiss : (getCachedBrief 360000
      { cachedBrief := some demoBrief, briefTimestamp := some 0 }).1 = none := by
    rw [h.2.1 demoBrief 0 rfl rfl (by decide)]
  exact (h.2.2.2 (.ok []) (.ok []) hmiss).1

/-! ## C9: behavior when a source fetch fails -/

/-- C9, counterexample: with a TTL-expired cached brief present and
both source fetches failing, brief generation does not return the
cached brief with its original timestamp — it discards the stale entry
and produces a fresh brief with empty email data and the current
timestamp. -/
theorem C9_counterexample :
    (generateBrief 600000 { cachedBrief := some demoBrief, briefTimestamp := some 0 }
        (.error ()) (.error ())).1 ≠ demoBrief ∧
    (generateBrief 600000 { cachedBrief := some demoBrief, briefTimestamp := some 0 }
        (.error ()) (.error ())).1.timestamp ≠ demoBrief.timestamp ∧
    (generateBrief 600000 { cachedBrief := some demoBrief, briefTimestamp := some 0 }
        (.error ()) (.error ())).1.allEmails = [] := by
  decide

/-- C9 (amended): when a source fetch fails, the email and calendar
services catch the error internally and return the empty list, so
brief generation never propagates a fetch failure: on a cache hit it
returns the cached brief unchanged, and on a cache miss — including
the case of a stale discarded entry — it produces a fresh brief with
empty email and event lists stamped with the current time.  No stale
indicator or stale-cache fallback exists. -/
theorem C9_fetch_failure_behavior (now : Int) (st : Store) :
    getEmailsFromWindow now (.error ()) = [] ∧
    getEventsFromWindow (.error ()) = [] ∧
    (∀ d : BriefData, (getCachedBrief now st).1 = some d →
      (generateBrief now st (.error ()) (.error ())).1 = d) ∧
    ((getCachedBrief now st).1 = none →
      (generateBrief now st (.error ()) (.error ())).1 =
        { id := "brief_" ++ toString now, timestamp := now,
          calendarEvents := [], topEmails := [], allEmails := [] }) := by
  refine ⟨rfl, rfl, ?_, ?_⟩
  · intro d hd
    rcases hg : getCachedBrief now st with ⟨o, st'⟩
    rw [hg] at hd
    simp only at hd
    subst hd
    simp [generateBrief, hg]
  · intro hmiss
    rcases hg : getCachedBrief now st with ⟨o, st'⟩
    rw [hg] at hmiss
    simp only at hmiss
    subst hmiss
    simp [generateBrief, hg]
    exact ⟨rfl, rfl⟩

/-- C9, witness: on a cache hit the cached brief is served even while
both fetches fail. -/
theorem C9_witness :
    (getCachedBrief 0 { cachedBrief := some demoBrief, briefTimestamp := some 0 }).1 =
      some demoBrief ∧
    (generateBrief 0 { cachedBrief := some demoBrief, briefTimestamp := some 0 }
        (.error ()) (.error ())).1 = demoBrief :=
  ⟨by decide,
    (C9_fetch_failure_behavior 0
      { cachedBrief := some demoBrief, briefTimestamp := some 0 }).2.2.1 demoBrief
      (by decide)⟩

/-! ## C6: no single-flight guard on concurrent generation -/

/-- The brief generated at time 0 from empty fetch results. -/
def freshBrief0 : BriefData :=
  { id := "brief_0", timestamp := 0, calendarEvents := [],
    topEmails := [], allEmails := [] }

/-- C6, code violation: two concurrent `generateBrief` calls on a cold
cache, interleaved so that both cache checks run before either
generation completes, start two underlying generations — there is no
single-flight registry coalescing them — and each caller finishes with
its own independently generated brief. -/
theorem C6_double_generation :
    (runSched 0 (.ok []) (.ok []) (initSys emptyStore)
        [false, true, false, true]).gens = 2 ∧
    (runSched 0 (.ok []) (.ok []) (initSys emptyStore)
        [false, true, false, true]).pcA = .finished freshBrief0 ∧
    (runSched 0 (.ok []) (.ok []) (initSys emptyStore)
        [false, true, false, true]).pcB = .finished freshBrief0 := by
  decide

/-! ## C8: no deduplication of same-key threads -/

/-- The message of the first duplicate thread: subject `Re: Budget`,
participants alice and bob. -/
def dupMsg1 : RawMessage :=
  { internalDate := 0, labelIds := none,
    headers := [{ name := "Subject", value := "Re: Budget" },
                { name := "From", value := "alice@x.com" },
                { name := "To", value := "bob@y.com" }],
    snippet := none }

/-- The message of the second duplicate thread: subject `budget`, same
participants. -/
def dupMsg2 : RawMessage :=
  { internalDate := 0, labelIds := none,
    headers := [{ name := "Subject", value := "budget" },
                { name := "From", value := "alice@x.com" },
                { name := "To", value := "bob@y.com" }],
    snippet := none }

/-- A raw thread from the first linked account. -/
def dupRawT1 : RawThread :=
  { id := "acct1-t1", messages := [dupMsg1] }

/-- A raw thread from the second linked account with a different
provider id but the same deduplication key: normalized subject
`budget` and the same participant set. -/
def dupRawT2 : RawThread :=
  { id := "acct2-t9", messages := [dupMsg2] }

/-- C8, code violation: the brief pipeline emits both threads — two
entries with distinct provider ids — although every pair of emitted
threads carries the same deduplication key; no merging happens
anywhere in the pipeline. -/
theorem C8_no_dedup :
    (generateBrief 0 emptyStore (.ok [dupRawT1, dupRawT2]) (.ok [])).1.allEmails.length = 2 ∧
    ((generateBrief 0 emptyStore (.ok [dupRawT1, dupRawT2]) (.ok [])).1.allEmails.map
        (fun t => t.id)) = ["acct1-t1", "acct2-t9"] ∧
    (∀ x ∈ (generateBrief 0 emptyStore (.ok [dupRawT1, dupRawT2]) (.ok [])).1.allEmails,
      ∀ y ∈ (generateBrief 0 emptyStore (.ok [dupRawT1, dupRawT2]) (.ok [])).1.allEmails,
        sameDedupKey x y = true) := by
  decide

end EEA
